import Mathlib

/-!
Shallow embedding of the dual-shell session orchestrator of `gcdeploy`.

The embedded components and their sources:
* Credential loader (`PublicKeyFile`, `ErrPassphraseRequired`) — `internal/deploy` SSH
  module, function `PublicKeyFile`.
* Terminal write (`TerminalSession.Write`) — same module, method `Write`.
* The Bubble Tea model (`internal/tui/model.go`): deployment sequencer state,
  the `Update` message handlers relevant to the deployment flow
  (`tickMsg`, `LocalOutputMsg`, `LocalErrorMsg`, `DeploymentStepMsg`,
  `DeploymentCompleteMsg`, `TerminalConnectedMsg`), and the helper functions
  `StartDeploymentScript`, `executeDeploymentStep`, `ContinueDeployment`,
  `StartLocalCommand`.

Modelling conventions, stated once here:
* Go strings accumulated by repeated concatenation (the content buffers
  `localContent`, `remoteContent`, `logContent`) are modelled as `List String`
  of the appended chunks, in append order; `s += x` becomes `l := l ++ [x]`.
* Channels (`terminalOutputCh`, `localOutputCh`, `localErrCh`) are FIFO queues
  modelled as `List String` (head = next value to be received).
* Bytes handed to `terminalSession.Write` are recorded in the ghost field
  `sentToRemote` (append order), since the write's observable effect is the
  byte stream sent to the remote pseudo-terminal's stdin.
* `Model.Update` has a pointer receiver in Go, and the command-building helpers
  (`ContinueDeployment`, `executeDeploymentStep`, `StartDeploymentScript`)
  mutate the model and perform `terminalSession.Write` at *call* time — Go
  evaluates the arguments of `tea.Sequence`/`tea.Batch` eagerly.  They are
  therefore embedded as `Model → Model × Cmd`, and `update` applies their
  state effects in the same step that handles the incoming message, exactly
  as the Go code does.  Only the *messages* produced by the returned
  `tea.Cmd` closures are deferred.
* Rendering, viewports, key handling, window sizing, and the SSH connection
  machinery are not modelled; none of them read or write the deployment
  sequencer fields (`deploymentSteps`, `currentStep`, `deploymentRunning`,
  `deploymentComplete`) or the terminal session's input stream.
* `Init` unconditionally sets `terminalMode = true` and nothing ever resets
  it, so the embedding covers the terminal-mode branches of `Update`; the
  legacy single-viewport branches are dead after `Init`.
-/

namespace GCDeploy

/-- Bool test that `pat` occurs at the head of `rest`, on character lists. -/
def matchesAt : List Char → List Char → Bool
  | [], _ => true
  | _ :: _, [] => false
  | p :: ps, c :: cs => (p == c) && matchesAt ps cs

/-- Embedding of Go `strings.Contains s pat` as used by `PublicKeyFile`. -/
def strContains (s pat : String) : Bool :=
  (List.range (s.toList.length + 1)).any fun i => matchesAt pat.toList (s.toList.drop i)

/-- Relevant content of a private key file: either it parses without a
passphrase, or it is encrypted with some (correct) passphrase, or it is not a
key at all.  Reading the file from disk is assumed to succeed (the read-error
branch of `PublicKeyFile` merely wraps the I/O error and is not claim-relevant). -/
inductive KeyFile
  | unencrypted
  | encrypted (correctPassphrase : String)
  | invalid
deriving DecidableEq, Repr

/-- External collaborator model: `golang.org/x/crypto/ssh.ParsePrivateKey`.
Per the library's documented behaviour it fails on a passphrase-protected key
with `ssh.PassphraseMissingError`, whose message is
"ssh: this private key is passphrase protected"; on junk input the error does
not mention a passphrase. -/
def sshParsePrivateKey : KeyFile → Except String Unit
  | .unencrypted => .ok ()
  | .encrypted _ => .error "ssh: this private key is passphrase protected"
  | .invalid => .error "ssh: no key found"

/-- External collaborator model: `ssh.ParsePrivateKeyWithPassphrase`, which
succeeds exactly when given the key's correct passphrase. -/
def sshParsePrivateKeyWithPassphrase : KeyFile → String → Except String Unit
  | .unencrypted, _ => .ok ()
  | .encrypted correct, given =>
      if given = correct then .ok () else .error "x509: decryption password incorrect"
  | .invalid, _ => .error "ssh: no key found"

/-- Error taxonomy of the credential loader.  `passphraseRequired` embeds the
distinguished sentinel `ErrPassphraseRequired`; the other constructors embed the
`fmt.Errorf`-wrapped generic errors (carrying the underlying message). -/
inductive AuthError
  | passphraseRequired
  | parseFailed (msg : String)
  | passphraseParseFailed (msg : String)
deriving DecidableEq, Repr

/-- Embedding of `deploy.PublicKeyFile(file, passphrase)`:
try `ssh.ParsePrivateKey` first; if the error mentions neither "passphrase" nor
"password", fail generically; otherwise, with an empty passphrase return
`ErrPassphraseRequired`, else retry with the passphrase.  A successful parse
returns the auth handle (modelled as `Unit`). -/
def PublicKeyFile (file : KeyFile) (passphrase : String) : Except AuthError Unit :=
  match sshParsePrivateKey file with
  | .ok _ => .ok ()
  | .error errMsg =>
    if !strContains errMsg "passphrase" && !strContains errMsg "password" then
      .error (.parseFailed errMsg)
    else if passphrase = "" then
      .error .passphraseRequired
    else
      match sshParsePrivateKeyWithPassphrase file passphrase with
      | .ok _ => .ok ()
      | .error e2 => .error (.passphraseParseFailed e2)

/-- Error results of `TerminalSession.Write`. -/
inductive WriteError
  | nilPipe
  | ioError (msg : String)
  | partialWrite (wrote total : Nat)
deriving DecidableEq, Repr

namespace TerminalSession

/-- Embedding of `TerminalSession.Write(data)`.  `stdinNil` models
`ts.stdinPipe == nil`; `pipeResult = (n, err)` models the pair returned by the
underlying `ts.stdinPipe.Write(data)` call; `data` is the byte slice. -/
def write (stdinNil : Bool) (pipeResult : Nat × Option String) (data : List Nat) :
    Except WriteError Unit :=
  if stdinNil then .error .nilPipe
  else
    match pipeResult with
    | (_, some e) => .error (.ioError e)
    | (n, none) =>
      if n ≠ data.length then .error (.partialWrite n data.length) else .ok ()

end TerminalSession

/-- Embedding of `config.DeploymentStep`: one `{command, target}` step of the
deployment plan, with `Target` the literal string "local" or "remote". -/
structure DeploymentStep where
  Command : String
  Target : String
deriving DecidableEq, Repr

/-- Messages of the Bubble Tea event loop that interact with the deployment
sequencer or the stream-multiplexer drain.  `tick` is `tickMsg`;
`localOutput` is `LocalOutputMsg`; `localError` is `LocalErrorMsg`;
`deploymentStep` is `DeploymentStepMsg` (fields `StepNum`, `Total`, `Step`);
`deploymentDone` is `DeploymentCompleteMsg`; `terminalConnected` is
`TerminalConnectedMsg`.  The remaining message kinds of `Model.Update`
(key input, window size, SSH stream/passphrase messages) never read or
write the deployment sequencer fields and are omitted. -/
inductive Msg
  | tick
  | localOutput (data : String)
  | localError (err : String)
  | deploymentStep (stepNum : Nat) (total : Nat) (step : DeploymentStep)
  | deploymentDone
  | terminalConnected
deriving DecidableEq, Repr

/-- Deep embedding of the `tea.Cmd` values built by the embedded handlers.
`delayed ms msg` is `tea.Tick(ms, func() { return msg })`; `emit` is a plain
closure returning a message; `spawnLocal c` is the closure returned by
`StartLocalCommand(c)` (which spawns the process and immediately returns the
empty `LocalOutputMsg` acknowledgment); `seq`/`batch` are `tea.Sequence` /
`tea.Batch` (the source's 3-argument calls are nested to the right). -/
inductive Cmd
  | nil
  | emit (msg : Msg)
  | delayed (ms : Nat) (msg : Msg)
  | spawnLocal (command : String)
  | seq (a b : Cmd)
  | batch (a b : Cmd)
deriving DecidableEq, Repr

/-- The 50 ms render tick command, `tick()` in model.go. -/
def tickCmd : Cmd := .delayed 50 .tick

/-- The deployment-relevant state of `tui.Model` (content buffers as chunk
lists, channels as FIFO queues, `terminalSession` as a presence flag,
`sentToRemote` the ghost record of bytes handed to `terminalSession.Write`). -/
structure Model where
  localContent : List String
  remoteContent : List String
  logContent : List String
  terminalOutputCh : List String
  localOutputCh : List String
  localErrCh : List String
  terminalSession : Bool
  deploymentSteps : List DeploymentStep
  currentStep : Nat
  deploymentRunning : Bool
  deploymentComplete : Bool
  sentToRemote : List String
deriving DecidableEq, Repr

/-- The model as it stands when a deployment may start: `New()`'s zero values
for the sequencer fields, the plan installed by `SetInstanceAndCommand`, and
the terminal session present or not.  Buffer contents are claim-irrelevant and
start empty. -/
def initModel (steps : List DeploymentStep) (sessionPresent : Bool) : Model :=
  { localContent := [], remoteContent := [], logContent := [],
    terminalOutputCh := [], localOutputCh := [], localErrCh := [],
    terminalSession := sessionPresent, deploymentSteps := steps,
    currentStep := 0, deploymentRunning := false, deploymentComplete := false,
    sentToRemote := [] }

/-- One bounded drain loop of the `tickMsg` handler
(`for reads < maxReads { select { case data := <-ch: ...; default: break } }`):
reads values from the channel until the budget is exhausted or the channel is
empty, appending each to the content buffer.  Returns (number read, remaining
channel, new content). -/
def drainLoop (budget : Nat) (ch : List String) (content : List String) :
    Nat × List String × List String :=
  match budget, ch with
  | 0, rest => (0, rest, content)
  | _ + 1, [] => (0, [], content)
  | b + 1, d :: rest =>
    let r := drainLoop b rest (content ++ [d])
    (r.1 + 1, r.2.1, r.2.2)

/-- Embedding of `Model.executeDeploymentStep(stepIndex)`.  Mutations (the
cursor update and, for a remote step, the `terminalSession.Write` of
`step.Command + "\n"`) happen at call time; the returned `Cmd` holds the
deferred message emissions and the local spawn closure.  The remote branch's
write is modelled as succeeding (a failed write would instead return a
`LocalErrorMsg` closure); the nil-session guard is embedded. -/
def executeDeploymentStep (m : Model) (stepIndex : Nat) : Model × Cmd :=
  if m.deploymentSteps.length ≤ stepIndex then
    ({ m with deploymentRunning := false, deploymentComplete := true },
     .emit .deploymentDone)
  else
    let step := m.deploymentSteps.getD stepIndex ⟨"", ""⟩
    let m1 := { m with currentStep := stepIndex }
    let stepMsg : Msg := .deploymentStep (stepIndex + 1) m1.deploymentSteps.length step
    if step.Target = "local" then
      (m1, .batch (.emit stepMsg) (.spawnLocal step.Command))
    else
      if m1.terminalSession = false then
        (m1, .emit (.localError "remote step requires SSH connection"))
      else
        ({ m1 with sentToRemote := m1.sentToRemote ++ [step.Command ++ "\n"] },
         .emit stepMsg)

/-- Embedding of `Model.ContinueDeployment()`: if no deployment is running it
returns `nil`; otherwise it (eagerly) executes the next step and wraps the
step's command behind a 500 ms tick in a `tea.Sequence`. -/
def ContinueDeployment (m : Model) : Model × Cmd :=
  if m.deploymentRunning = false then (m, .nil)
  else
    let r := executeDeploymentStep m (m.currentStep + 1)
    (r.1, .seq (.delayed 500 .tick) r.2)

/-- Embedding of `Model.StartDeploymentScript()`: an empty plan is marked
complete immediately (only the `deploymentComplete` flag is set and a
`DeploymentCompleteMsg` closure returned); otherwise the sequencer starts
running at step 0. -/
def StartDeploymentScript (m : Model) : Model × Cmd :=
  if m.deploymentSteps.length = 0 then
    ({ m with deploymentComplete := true }, .emit .deploymentDone)
  else
    let m1 := { m with deploymentRunning := true, currentStep := 0 }
    executeDeploymentStep m1 0

/-- Embedding of the deployment-relevant cases of `Model.Update` (terminal
mode).  Each case returns the new model together with the `tea.Cmd` the
handler returns; per the Go evaluation order, the state effects of
`StartDeploymentScript` / `ContinueDeployment` are part of this same step. -/
def update (m : Model) (msg : Msg) : Model × Cmd :=
  match msg with
  | .tick =>
    -- bounded, non-blocking drain: remote channel first, then local,
    -- sharing the single `reads < maxReads` counter; then one attempt
    -- to receive from localErrCh, appended to the local pane as text.
    let maxReads := 10
    let r := drainLoop maxReads m.terminalOutputCh m.remoteContent
    let l := drainLoop (maxReads - r.1) m.localOutputCh m.localContent
    let e :=
      match m.localErrCh with
      | [] => (m.localErrCh, l.2.2)
      | err :: rest => (rest, l.2.2 ++ ["\n[ERROR] " ++ err ++ "\n"])
    ({ m with terminalOutputCh := r.2.1, remoteContent := r.2.2,
              localOutputCh := l.2.1, localContent := e.2,
              localErrCh := e.1 }, tickCmd)
  | .localOutput data =>
    let m1 := { m with localContent := m.localContent ++ [data] }
    if m1.deploymentRunning then
      let r := ContinueDeployment m1
      (r.1, .seq tickCmd (.seq (.delayed 500 .tick) r.2))
    else
      (m1, tickCmd)
  | .localError err =>
    let m1 := { m with
      localContent := m.localContent ++ ["\n[ERROR] " ++ err ++ "\n"],
      logContent := m.logContent ++ ["[ERROR] Local command failed: " ++ err ++ "\n"] }
    let m2 :=
      if m1.deploymentRunning then
        { m1 with deploymentRunning := false,
                  logContent := m1.logContent ++ ["[INFO] Deployment stopped due to error\n"] }
      else m1
    (m2, tickCmd)
  | .deploymentStep stepNum total step =>
    if stepNum = 0 ∧ step.Command = "" ∧ m.deploymentRunning = false then
      StartDeploymentScript m
    else
      let targetLabel := if step.Target = "remote" then "remote" else "local"
      let logMsg := "[STEP] [" ++ toString stepNum ++ "/" ++ toString total ++ "] Running "
        ++ targetLabel ++ ": " ++ step.Command
      let m1 := { m with logContent := m.logContent ++ [logMsg ++ "\n"] }
      if step.Target = "remote" then
        let r := ContinueDeployment m1
        (r.1, .seq (.delayed 2000 .tick) r.2)
      else
        (m1, tickCmd)
  | .deploymentDone =>
    ({ m with deploymentRunning := false, deploymentComplete := true,
              logContent := m.logContent
                ++ ["[SUCCESS] Deployment script completed. SSH session preserved for manual use.\n"] },
     tickCmd)
  | .terminalConnected =>
    -- stores the session and, when a plan exists, schedules the deployment
    -- trigger message after 1 s; otherwise only the render tick is returned
    -- (the initial-command goroutine of the no-plan branch and the
    -- remote-host lookup touch no sequencer state and are not modelled).
    let m1 := { m with terminalSession := true,
                       logContent := m.logContent
                         ++ ["[SUCCESS] Terminal connected. Waiting for shell...\n"] }
    if m1.deploymentSteps.length > 0 then
      (m1, .batch tickCmd
        (.delayed 1000 (.deploymentStep 0 m1.deploymentSteps.length ⟨"", ""⟩)))
    else
      (m1, tickCmd)

/-- Interpretation of a `Cmd` by the event loop: the list of messages it will
deliver (in order) and the local commands it spawns.  `spawnLocal` spawns the
process and delivers the empty `LocalOutputMsg` acknowledgment that
`StartLocalCommand` returns immediately after `cmd.Start()` — before the
process exits (a successful process delivers no further message; a non-zero
exit is sent by the `cmd.Wait` goroutine to the `localErrCh` channel, which is
an environment event on `Model.localErrCh`, not a `Cmd`).  The periodic render
ticks are elided: by `tick_preserves_sequencer` a `tick` never changes the
sequencer state, the channels written by commands, or the remote input stream. -/
def Cmd.collect : Cmd → List Msg × List String
  | .nil => ([], [])
  | .emit msg => ([msg], [])
  | .delayed _ msg => if msg = Msg.tick then ([], []) else ([msg], [])
  | .spawnLocal c => ([.localOutput ""], [c])
  | .seq a b => (a.collect.1 ++ b.collect.1, a.collect.2 ++ b.collect.2)
  | .batch a b => (a.collect.1 ++ b.collect.1, a.collect.2 ++ b.collect.2)

/-- Closed-system state: the model, the FIFO queue of messages awaiting
delivery to `Update`, and the ghost list of spawned local commands. -/
structure Sys where
  model : Model
  queue : List Msg
  spawned : List String
deriving DecidableEq, Repr

/-- One step of the event loop: deliver the head message to `update`, run the
returned command, enqueue its messages and record its spawns.  A state with an
empty queue is a fixpoint. -/
def stepSys (s : Sys) : Sys :=
  match s.queue with
  | [] => s
  | msg :: rest =>
    let r := update s.model msg
    { model := r.1,
      queue := rest ++ r.2.collect.1,
      spawned := s.spawned ++ r.2.collect.2 }

/-- Run the event loop for a bounded number of delivery steps. -/
def run : Nat → Sys → Sys
  | 0, s => s
  | fuel + 1, s => run fuel (stepSys s)

/-- The deployment trigger message emitted by the `TerminalConnectedMsg`
handler: `DeploymentStepMsg{StepNum: 0, Total: len(steps), Step: {}}`. -/
def triggerMsg (total : Nat) : Msg := .deploymentStep 0 total ⟨"", ""⟩

/-- Queue contents produced by dispatching step `i` of the plan: the step
message, followed (for a local step) by the spawn acknowledgment. -/
def dispatchQueue (steps : List DeploymentStep) (i : Nat) : List Msg :=
  let step := steps.getD i ⟨"", ""⟩
  if step.Target = "local" then
    [.deploymentStep (i + 1) steps.length step, .localOutput ""]
  else
    [.deploymentStep (i + 1) steps.length step]

/-- A system state in which the deployment has finished: the complete flag is
set, the sequencer is no longer running, the cursor rests at `n`, and no
messages remain to be delivered. -/
def FinishedAt (s : Sys) (n : Nat) : Prop :=
  s.model.deploymentComplete = true ∧ s.model.deploymentRunning = false ∧
  s.model.currentStep = n ∧ s.queue = []

end GCDeploy

namespace GCDeploy

/-- C4: the credential loader distinguishes its four contract cases: an
unencrypted key with empty passphrase yields a usable handle; an encrypted key
with empty passphrase yields exactly `ErrPassphraseRequired`; an encrypted key
with its correct (non-empty) passphrase yields a usable handle; an encrypted
key with a wrong non-empty passphrase yields a wrapped invalid-key error that
is not `ErrPassphraseRequired`. -/
theorem c4_publicKeyFile_contract (p q : String) (hp : p ≠ "") (hq : q ≠ "") (hqp : q ≠ p) :
    PublicKeyFile .unencrypted "" = .ok () ∧
    PublicKeyFile (.encrypted p) "" = .error .passphraseRequired ∧
    PublicKeyFile (.encrypted p) p = .ok () ∧
    PublicKeyFile (.encrypted p) q
      = .error (.passphraseParseFailed "x509: decryption password incorrect") ∧
    PublicKeyFile (.encrypted p) q ≠ .error .passphraseRequired := by
  have hc : strContains "ssh: this private key is passphrase protected" "passphrase" = true := by
    decide
  refine ⟨rfl, rfl, ?_, ?_, ?_⟩
  · simp [PublicKeyFile, sshParsePrivateKey, sshParsePrivateKeyWithPassphrase, hp, hc]
  · simp [PublicKeyFile, sshParsePrivateKey, sshParsePrivateKeyWithPassphrase, hq, hqp, hc]
  · simp [PublicKeyFile, sshParsePrivateKey, sshParsePrivateKeyWithPassphrase, hq, hqp, hc]

/-- Witness for C4 at a concrete encrypted key with passphrase "secret" and
wrong passphrase "wrong". -/
theorem c4_publicKeyFile_contract_witness :
    PublicKeyFile .unencrypted "" = .ok () ∧
    PublicKeyFile (.encrypted "secret") "" = .error .passphraseRequired ∧
    PublicKeyFile (.encrypted "secret") "secret" = .ok () ∧
    PublicKeyFile (.encrypted "secret") "wrong"
      = .error (.passphraseParseFailed "x509: decryption password incorrect") ∧
    PublicKeyFile (.encrypted "secret") "wrong" ≠ .error .passphraseRequired :=
  c4_publicKeyFile_contract "secret" "wrong" (by decide) (by decide) (by decide)

/-- C10: for an unencrypted key file, `PublicKeyFile` succeeds for every
passphrase value — the no-passphrase parse succeeds and the passphrase argument
is never consulted. -/
theorem c10_unencrypted_ignores_passphrase (passphrase : String) :
    PublicKeyFile .unencrypted passphrase = .ok () := rfl

/-- C7: `TerminalSession.Write` returns success exactly when the pipe was
present, the underlying write reported no error, and the reported count equals
the full length of the data; and a short count without an error is reported as
a partial-write error, never as success. -/
theorem c7_terminal_write_full_or_error (stdinNil : Bool) (n : Nat) (e : Option String)
    (data : List Nat) :
    (TerminalSession.write stdinNil (n, e) data = .ok ()
      ↔ (stdinNil = false ∧ e = none ∧ n = data.length)) ∧
    (stdinNil = false → e = none → n < data.length →
      TerminalSession.write stdinNil (n, e) data = .error (.partialWrite n data.length)) := by
  constructor
  · constructor
    · intro h
      cases stdinNil <;> cases e <;>
        simp_all [TerminalSession.write]
    · rintro ⟨h1, h2, h3⟩
      subst h1; subst h2; subst h3
      simp [TerminalSession.write]
  · intro h1 h2 h3
    subst h1; subst h2
    simp [TerminalSession.write]
    intro h
    omega

/-- Witness for C7: a pipe write that reports 2 of 3 bytes written with no
error is returned as a partial-write error. -/
theorem c7_terminal_write_full_or_error_witness :
    TerminalSession.write false (2, none) [10, 20, 30]
      = .error (.partialWrite 2 3) :=
  (c7_terminal_write_full_or_error false 2 none [10, 20, 30]).2 rfl rfl (by decide)

/-- Helper: a `tick` message only drains the output channels into the content
buffers; it never changes the deployment cursor, the flags, the plan, the
session, or the bytes sent to the remote input.  This justifies eliding the
self-perpetuating render ticks in `Cmd.collect`. -/
theorem tick_preserves_sequencer (m : Model) :
    (update m .tick).1.currentStep = m.currentStep ∧
    (update m .tick).1.deploymentRunning = m.deploymentRunning ∧
    (update m .tick).1.deploymentComplete = m.deploymentComplete ∧
    (update m .tick).1.deploymentSteps = m.deploymentSteps ∧
    (update m .tick).1.terminalSession = m.terminalSession ∧
    (update m .tick).1.sentToRemote = m.sentToRemote :=
  ⟨rfl, rfl, rfl, rfl, rfl, rfl⟩

/-- Helper: closed form of one bounded drain loop — it reads exactly
`min budget (length ch)` chunks, removes them from the front of the channel,
and appends them in order to the content buffer. -/
theorem drainLoop_spec (b : Nat) (ch content : List String) :
    drainLoop b ch content
      = (min b ch.length, ch.drop (min b ch.length),
         content ++ ch.take (min b ch.length)) := by
  induction b generalizing ch content with
  | zero => simp [drainLoop]
  | succ b ih =>
    cases ch with
    | nil => simp [drainLoop]
    | cons d rest =>
      simp [drainLoop, ih, Nat.succ_min_succ, List.append_assoc]

/-- C3 counterexample: with ten chunks queued on the remote channel and one on
the local channel, a tick reads all ten remote chunks and then reads nothing
from the local channel — the local chunk stays queued and the local buffer is
untouched.  Under the claim (a full budget of ten for the local channel,
independent of the remote reads) the local chunk would have been read. -/
theorem c3_local_budget_counterexample :
    (let m := { initModel [] true with
        terminalOutputCh := ["r0","r1","r2","r3","r4","r5","r6","r7","r8","r9"],
        localOutputCh := ["x"] }
     (update m .tick).1.remoteContent = ["r0","r1","r2","r3","r4","r5","r6","r7","r8","r9"] ∧
     (update m .tick).1.terminalOutputCh = [] ∧
     (update m .tick).1.localOutputCh = ["x"] ∧
     (update m .tick).1.localContent = []) := by
  decide

/-- C3 (amended): each tick performs a bounded, non-blocking drain in which the
remote and local channels share a single budget of ten reads: the remote
channel is drained first, reading `min 10 (length remote)` chunks, and the
local channel then gets only the remainder of the budget,
`min (10 - remoteReads) (length local)` chunks; each chunk read is appended in
order to its buffer, the channels lose exactly the chunks read, and at most one
queued local error is appended to the local pane as text. -/
theorem c3_tick_drain_shared_budget (m : Model) :
    (update m .tick).1.remoteContent
        = m.remoteContent ++ m.terminalOutputCh.take (min 10 m.terminalOutputCh.length) ∧
    (update m .tick).1.terminalOutputCh
        = m.terminalOutputCh.drop (min 10 m.terminalOutputCh.length) ∧
    (update m .tick).1.localContent
        = (m.localContent ++ m.localOutputCh.take
            (min (10 - min 10 m.terminalOutputCh.length) m.localOutputCh.length))
          ++ (match m.localErrCh with
              | [] => []
              | err :: _ => ["\n[ERROR] " ++ err ++ "\n"]) ∧
    (update m .tick).1.localOutputCh
        = m.localOutputCh.drop
            (min (10 - min 10 m.terminalOutputCh.length) m.localOutputCh.length) ∧
    (update m .tick).1.localErrCh = m.localErrCh.drop 1 := by
  cases h : m.localErrCh <;>
    simp [update, drainLoop_spec, h]

/-- C2: in the embedded system, step `i+1` is dispatched when the sequencer
processes the empty `LocalOutputMsg` acknowledgment of step `i` — the message
`StartLocalCommand` returns immediately after spawning the process, before it
exits — and a successful local command never produces any completion signal at
all (the `cmd.Wait` goroutine reports only errors, into `localErrCh`).  On the
plan `[sleep 5 (local), echo done (local)]`, the update that handles step 1's
spawn acknowledgment already advances the cursor to step 2 and returns the
command that spawns `echo done`, while `sleep 5` is still running. -/
theorem c2_next_step_dispatched_at_spawn_ack :
    (let steps := [DeploymentStep.mk "sleep 5" "local", DeploymentStep.mk "echo done" "local"]
     let p1 := update (initModel steps true) (triggerMsg 2)
     let p2 := update p1.1 (Msg.localOutput "")
     p1.2 = .batch (.emit (.deploymentStep 1 2 ⟨"sleep 5", "local"⟩)) (.spawnLocal "sleep 5") ∧
     p2.1.currentStep = 1 ∧
     p2.1.deploymentRunning = true ∧
     p2.2.collect.2 = ["echo done"]) := by
  decide

/-- C6: on the plan `[echo b (remote), echo d (remote)]`, the trigger update
writes `"echo b\n"` and returns step 1's `DeploymentStepMsg` behind no delay;
the update that processes that message already performs the write of
`"echo d\n"` (Go evaluates `m.ContinueDeployment()` — and with it
`executeDeploymentStep`'s `terminalSession.Write` — eagerly while building the
`tea.Sequence`), so the two writes happen in consecutive undelayed update
calls; the 2 s settle tick and 500 ms tick occur only in the returned command,
after the write has already been sent.  Each write is exactly the step's
command text plus a single `"\n"`. -/
theorem c6_remote_write_before_settle_delay :
    (let steps := [DeploymentStep.mk "echo b" "remote", DeploymentStep.mk "echo d" "remote"]
     let p1 := update (initModel steps true) (triggerMsg 2)
     let p2 := update p1.1 (Msg.deploymentStep 1 2 ⟨"echo b", "remote"⟩)
     p1.1.sentToRemote = ["echo b\n"] ∧
     p1.2 = .emit (.deploymentStep 1 2 ⟨"echo b", "remote"⟩) ∧
     p2.1.sentToRemote = ["echo b\n", "echo d\n"] ∧
     p2.2 = .seq (.delayed 2000 .tick) (.seq (.delayed 500 .tick)
              (.emit (.deploymentStep 2 2 ⟨"echo d", "remote"⟩)))) := by
  decide

/-- C1: a local step's non-zero exit is sent by the `cmd.Wait` goroutine to the
`localErrCh` channel, which the tick handler drains as mere text — no
`LocalErrorMsg` is produced, so the deployment is not aborted.  On the plan
`[false (local), echo hi (local)]`, after step 1's exit error is queued and a
tick drains it, `deploymentRunning` is still true, and the subsequent spawn
acknowledgment advances the cursor and dispatches step 2 (the session staying
open throughout). -/
theorem c1_nonzero_exit_does_not_abort :
    (let steps := [DeploymentStep.mk "false" "local", DeploymentStep.mk "echo hi" "local"]
     let p1 := update (initModel steps true) (triggerMsg 2)
     let mErr := { p1.1 with localErrCh := p1.1.localErrCh ++ ["exit status 1"] }
     let p2 := update mErr .tick
     let p3 := update p2.1 (Msg.localOutput "")
     p2.1.deploymentRunning = true ∧
     p2.1.deploymentComplete = false ∧
     p2.1.currentStep = 0 ∧
     p2.1.localContent = ["\n[ERROR] exit status 1\n"] ∧
     p2.1.terminalSession = true ∧
     p3.1.deploymentRunning = true ∧
     p3.1.currentStep = 1 ∧
     p3.2.collect.2 = ["echo hi"]) := by
  decide

/-- C8: starting the sequencer on an empty plan reaches the complete state
immediately — `deploymentComplete` becomes true, the sequencer never runs, no
local command is spawned, and nothing is written to the remote terminal
session, whether or not a session is present. -/
theorem c8_empty_plan_complete (sessionPresent : Bool) :
    ((run 3 ⟨initModel [] sessionPresent, [triggerMsg 0], []⟩).model.deploymentComplete = true) ∧
    ((run 3 ⟨initModel [] sessionPresent, [triggerMsg 0], []⟩).model.deploymentRunning = false) ∧
    ((run 3 ⟨initModel [] sessionPresent, [triggerMsg 0], []⟩).spawned = []) ∧
    ((run 3 ⟨initModel [] sessionPresent, [triggerMsg 0], []⟩).model.sentToRemote = []) ∧
    ((run 3 ⟨initModel [] sessionPresent, [triggerMsg 0], []⟩).queue = []) := by
  cases sessionPresent <;> decide

/-- Helper: an in-range `getD` is a member of the list. -/
theorem getD_mem_of_lt (l : List DeploymentStep) (n : Nat) (h : n < l.length)
    (d : DeploymentStep) : l.getD n d ∈ l := by
  induction l generalizing n with
  | nil => simp at h
  | cons a as ih =>
    cases n with
    | zero => simp
    | succ n =>
      simp only [List.getD_cons_succ]
      exact List.mem_cons_of_mem _ (ih n (by simpa using h))

/-- Helper: a state with an empty queue is a fixpoint of the event loop. -/
theorem stepSys_nil (s : Sys) (h : s.queue = []) : stepSys s = s := by
  unfold stepSys
  rw [h]

/-- Helper: running any amount of fuel from an empty queue changes nothing. -/
theorem run_nilQueue (fuel : Nat) (s : Sys) (h : s.queue = []) : run fuel s = s := by
  induction fuel with
  | zero => rfl
  | succ n ih => rw [run, stepSys_nil s h]; exact ih

/-- Helper: unfolding one delivery step of the event loop. -/
theorem run_succ (n : Nat) (s : Sys) : run (n + 1) s = run n (stepSys s) := rfl

/-- Helper: fuel composes. -/
theorem run_add (a b : Nat) (s : Sys) : run (a + b) s = run b (run a s) := by
  induction a generalizing s with
  | zero => rw [Nat.zero_add]; rfl
  | succ n ih =>
    have he : n + 1 + b = (n + b) + 1 := by omega
    rw [he, run_succ (n + b) s, run_succ n s, ih (stepSys s)]

/-- Helper: the step message of a local step (step numbers are always ≥ 1)
only logs — the sequencer state is untouched and only the render tick is
returned (advancement for a local step comes from the spawn acknowledgment). -/
theorem update_stepMsg_local (m : Model) (i total : Nat) (step : DeploymentStep)
    (h : step.Target = "local") :
    (update m (.deploymentStep (i + 1) total step)).1.deploymentRunning = m.deploymentRunning ∧
    (update m (.deploymentStep (i + 1) total step)).1.deploymentComplete = m.deploymentComplete ∧
    (update m (.deploymentStep (i + 1) total step)).1.terminalSession = m.terminalSession ∧
    (update m (.deploymentStep (i + 1) total step)).1.deploymentSteps = m.deploymentSteps ∧
    (update m (.deploymentStep (i + 1) total step)).1.currentStep = m.currentStep ∧
    (update m (.deploymentStep (i + 1) total step)).2 = tickCmd := by
  simp [update, h]

/-- Helper: unfolding one delivery of the event loop on a non-empty queue. -/
theorem stepSys_cons (m : Model) (msg : Msg) (rest : List Msg) (sp : List String) :
    stepSys ⟨m, msg :: rest, sp⟩
      = ⟨(update m msg).1, rest ++ (update m msg).2.collect.1,
         sp ++ (update m msg).2.collect.2⟩ := rfl

/-- Helper: the dispatch queue of a local step, unfolded. -/
theorem dispatchQueue_local (steps : List DeploymentStep) (i : Nat)
    (h : (steps.getD i ⟨"", ""⟩).Target = "local") :
    dispatchQueue steps i
      = [.deploymentStep (i + 1) steps.length (steps.getD i ⟨"", ""⟩), .localOutput ""] := by
  simp only [dispatchQueue]
  rw [if_pos h]

/-- Helper: the dispatch queue of a non-local step, unfolded. -/
theorem dispatchQueue_remote (steps : List DeploymentStep) (i : Nat)
    (h : ¬ (steps.getD i ⟨"", ""⟩).Target = "local") :
    dispatchQueue steps i
      = [.deploymentStep (i + 1) steps.length (steps.getD i ⟨"", ""⟩)] := by
  simp only [dispatchQueue]
  rw [if_neg h]

/-- Helper: advancing mid-plan on the spawn acknowledgment.  With the
sequencer running, the session present, and the next index inside the plan,
the `LocalOutputMsg` handler (eagerly) runs `ContinueDeployment`: the cursor
moves to the next index and the returned command delivers exactly that step's
dispatch queue. -/
theorem update_ack_dispatch (m : Model)
    (hrun : m.deploymentRunning = true) (hsess : m.terminalSession = true)
    (hlt : m.currentStep + 1 < m.deploymentSteps.length) :
    (update m (.localOutput "")).1.deploymentRunning = true ∧
    (update m (.localOutput "")).1.terminalSession = true ∧
    (update m (.localOutput "")).1.deploymentSteps = m.deploymentSteps ∧
    (update m (.localOutput "")).1.currentStep = m.currentStep + 1 ∧
    (update m (.localOutput "")).2.collect.1
      = dispatchQueue m.deploymentSteps (m.currentStep + 1) := by
  have hn : ¬ (m.deploymentSteps.length ≤ m.currentStep + 1) := by omega
  by_cases ht : (m.deploymentSteps.getD (m.currentStep + 1) ⟨"", ""⟩).Target = "local"
  all_goals
    simp only [List.getD_eq_getElem?_getD] at ht
    simp [update, ContinueDeployment, executeDeploymentStep, hrun, hsess, hn, ht,
          Cmd.collect, dispatchQueue, tickCmd]

/-- Helper: advancing past the last step on the spawn acknowledgment.
`ContinueDeployment` takes the bounds branch of `executeDeploymentStep`: the
complete flag is set, the sequencer stops, the cursor is untouched, and only
the `DeploymentCompleteMsg` remains to be delivered. -/
theorem update_ack_finish (m : Model)
    (hrun : m.deploymentRunning = true)
    (hge : m.deploymentSteps.length ≤ m.currentStep + 1) :
    (update m (.localOutput "")).1.deploymentRunning = false ∧
    (update m (.localOutput "")).1.deploymentComplete = true ∧
    (update m (.localOutput "")).1.deploymentSteps = m.deploymentSteps ∧
    (update m (.localOutput "")).1.currentStep = m.currentStep ∧
    (update m (.localOutput "")).2.collect.1 = [Msg.deploymentDone] := by
  simp [update, ContinueDeployment, executeDeploymentStep, hrun, hge, Cmd.collect, tickCmd]

/-- Helper: the step message of a remote step, mid-plan.  The handler logs and
then (eagerly) runs `ContinueDeployment`: the cursor moves to the next index
and the returned command — whose 2 s settle tick is elided by `collect` —
delivers that step's dispatch queue. -/
theorem update_stepMsg_remote_dispatch (m : Model) (i total : Nat) (step : DeploymentStep)
    (hrem : step.Target = "remote")
    (hrun : m.deploymentRunning = true) (hsess : m.terminalSession = true)
    (hlt : m.currentStep + 1 < m.deploymentSteps.length) :
    (update m (.deploymentStep (i + 1) total step)).1.deploymentRunning = true ∧
    (update m (.deploymentStep (i + 1) total step)).1.terminalSession = true ∧
    (update m (.deploymentStep (i + 1) total step)).1.deploymentSteps = m.deploymentSteps ∧
    (update m (.deploymentStep (i + 1) total step)).1.currentStep = m.currentStep + 1 ∧
    (update m (.deploymentStep (i + 1) total step)).2.collect.1
      = dispatchQueue m.deploymentSteps (m.currentStep + 1) := by
  have hn : ¬ (m.deploymentSteps.length ≤ m.currentStep + 1) := by omega
  by_cases ht : (m.deploymentSteps.getD (m.currentStep + 1) ⟨"", ""⟩).Target = "local"
  all_goals
    simp only [List.getD_eq_getElem?_getD] at ht
    simp [update, ContinueDeployment, executeDeploymentStep, hrem, hrun, hsess, hn, ht,
          Cmd.collect, dispatchQueue, tickCmd]

/-- Helper: the step message of a remote step that is the last of the plan.
The eager `ContinueDeployment` takes the bounds branch: complete flag set,
sequencer stopped, cursor untouched, only `DeploymentCompleteMsg` left. -/
theorem update_stepMsg_remote_finish (m : Model) (i total : Nat) (step : DeploymentStep)
    (hrem : step.Target = "remote")
    (hrun : m.deploymentRunning = true)
    (hge : m.deploymentSteps.length ≤ m.currentStep + 1) :
    (update m (.deploymentStep (i + 1) total step)).1.deploymentRunning = false ∧
    (update m (.deploymentStep (i + 1) total step)).1.deploymentComplete = true ∧
    (update m (.deploymentStep (i + 1) total step)).1.deploymentSteps = m.deploymentSteps ∧
    (update m (.deploymentStep (i + 1) total step)).1.currentStep = m.currentStep ∧
    (update m (.deploymentStep (i + 1) total step)).2.collect.1 = [Msg.deploymentDone] := by
  simp [update, ContinueDeployment, executeDeploymentStep, hrem, hrun, hge,
        Cmd.collect, tickCmd]

/-- Helper: the `DeploymentCompleteMsg` handler sets the final flags, leaves
the cursor alone, and delivers nothing further. -/
theorem update_deploymentDone (m : Model) :
    (update m .deploymentDone).1.deploymentComplete = true ∧
    (update m .deploymentDone).1.deploymentRunning = false ∧
    (update m .deploymentDone).1.currentStep = m.currentStep ∧
    (update m .deploymentDone).2.collect.1 = [] ∧
    (update m .deploymentDone).2.collect.2 = [] :=
  ⟨rfl, rfl, rfl, rfl, rfl⟩

/-- Helper: the tail of a deployment run.  From a state where the sequencer is
running at step `i` of a plan with `k + 1` steps remaining (counting step `i`),
valid targets, and the session present, consuming the dispatch queue of step
`i` with `2k + 4` fuel finishes the deployment with the cursor at the index of
the last step. -/
theorem run_tail : ∀ (k : Nat) (m : Model) (sp : List String),
    m.deploymentRunning = true →
    m.terminalSession = true →
    (∀ s ∈ m.deploymentSteps, s.Target = "local" ∨ s.Target = "remote") →
    m.currentStep + (k + 1) = m.deploymentSteps.length →
    FinishedAt (run (2 * k + 4) ⟨m, dispatchQueue m.deploymentSteps m.currentStep, sp⟩)
      (m.deploymentSteps.length - 1) := by
  intro k
  induction k with
  | zero =>
    intro m sp hrun hsess hval harith
    have hi : m.currentStep < m.deploymentSteps.length := by omega
    have hmem := getD_mem_of_lt m.deploymentSteps m.currentStep hi ⟨"", ""⟩
    rcases hval _ hmem with ht | ht
    · -- last step is local: step message, then the acknowledgment finishes
      obtain ⟨hA1, hA2, hA3, hA4, hA5, hA6⟩ :=
        update_stepMsg_local m m.currentStep m.deploymentSteps.length
          (m.deploymentSteps.getD m.currentStep ⟨"", ""⟩) ht
      obtain ⟨hB1, hB2, hB3, hB4, hB5⟩ := update_ack_finish
        (update m (.deploymentStep (m.currentStep + 1) m.deploymentSteps.length
          (m.deploymentSteps.getD m.currentStep ⟨"", ""⟩))).1
        (by rw [hA1]; exact hrun) (by rw [hA4, hA5]; omega)
      rw [show 2 * 0 + 4 = 1 + 1 + 1 + 1 by omega, dispatchQueue_local _ _ ht,
          run_succ, stepSys_cons, hA6]
      simp only [tickCmd, Cmd.collect, reduceIte, List.nil_append, List.append_nil]
      rw [run_succ, stepSys_cons, hB5]
      simp only [List.nil_append]
      rw [run_succ, stepSys_cons]
      obtain ⟨hC1, hC2, hC3, hC4, hC5⟩ := update_deploymentDone
        (update (update m (.deploymentStep (m.currentStep + 1) m.deploymentSteps.length
          (m.deploymentSteps.getD m.currentStep ⟨"", ""⟩))).1 (.localOutput "")).1
      rw [hC4]
      simp only [List.nil_append, List.append_nil]
      rw [run_succ, stepSys_nil _ rfl, run_nilQueue _ _ rfl]
      refine ⟨hC1, hC2, ?_, rfl⟩
      rw [hC3, hB4, hA5]
      omega
    · -- last step is remote: the step message itself advances and finishes
      obtain ⟨hB1, hB2, hB3, hB4, hB5⟩ := update_stepMsg_remote_finish m m.currentStep
        m.deploymentSteps.length (m.deploymentSteps.getD m.currentStep ⟨"", ""⟩)
        ht hrun (by omega)
      rw [show 2 * 0 + 4 = 1 + 1 + 1 + 1 by omega,
          dispatchQueue_remote _ _ (by rw [ht]; simp),
          run_succ, stepSys_cons, hB5]
      simp only [List.nil_append]
      rw [run_succ, stepSys_cons]
      obtain ⟨hC1, hC2, hC3, hC4, hC5⟩ := update_deploymentDone
        (update m (.deploymentStep (m.currentStep + 1) m.deploymentSteps.length
          (m.deploymentSteps.getD m.currentStep ⟨"", ""⟩))).1
      rw [hC4]
      simp only [List.nil_append, List.append_nil]
      rw [run_succ, stepSys_nil _ rfl, run_nilQueue _ _ rfl]
      refine ⟨hC1, hC2, ?_, rfl⟩
      rw [hC3, hB4]
      omega
  | succ k ih =>
    intro m sp hrun hsess hval harith
    have hi : m.currentStep < m.deploymentSteps.length := by omega
    have hmem := getD_mem_of_lt m.deploymentSteps m.currentStep hi ⟨"", ""⟩
    rcases hval _ hmem with ht | ht
    · -- local step i: two deliveries, then the induction hypothesis
      obtain ⟨hA1, hA2, hA3, hA4, hA5, hA6⟩ :=
        update_stepMsg_local m m.currentStep m.deploymentSteps.length
          (m.deploymentSteps.getD m.currentStep ⟨"", ""⟩) ht
      obtain ⟨hB1, hB2, hB3, hB4, hB5⟩ := update_ack_dispatch
        (update m (.deploymentStep (m.currentStep + 1) m.deploymentSteps.length
          (m.deploymentSteps.getD m.currentStep ⟨"", ""⟩))).1
        (by rw [hA1]; exact hrun) (by rw [hA3]; exact hsess) (by rw [hA4, hA5]; omega)
      rw [show 2 * (k + 1) + 4 = (2 * k + 4) + 1 + 1 by omega, dispatchQueue_local _ _ ht,
          run_succ, stepSys_cons, hA6]
      simp only [tickCmd, Cmd.collect, reduceIte, List.nil_append, List.append_nil]
      rw [run_succ, stepSys_cons, hB5]
      simp only [List.nil_append]
      have key := ih
        (update (update m (.deploymentStep (m.currentStep + 1) m.deploymentSteps.length
          (m.deploymentSteps.getD m.currentStep ⟨"", ""⟩))).1 (.localOutput "")).1
        (sp ++ (update (update m (.deploymentStep (m.currentStep + 1) m.deploymentSteps.length
          (m.deploymentSteps.getD m.currentStep ⟨"", ""⟩))).1 (.localOutput "")).2.collect.2)
        hB1 hB2 (by rw [hB3, hA4]; exact hval) (by rw [hB4, hB3, hA4, hA5]; omega)
      rw [hB3, hA4, hB4, hA5] at key
      rw [hA4, hA5]
      exact key
    · -- remote step i: one delivery, then the induction hypothesis with a
      -- spare unit of fuel absorbed by the finished state's empty queue
      obtain ⟨hB1, hB2, hB3, hB4, hB5⟩ := update_stepMsg_remote_dispatch m m.currentStep
        m.deploymentSteps.length (m.deploymentSteps.getD m.currentStep ⟨"", ""⟩)
        ht hrun hsess (by omega)
      rw [show 2 * (k + 1) + 4 = ((2 * k + 4) + 1) + 1 by omega,
          dispatchQueue_remote _ _ (by rw [ht]; simp),
          run_succ, stepSys_cons, hB5]
      simp only [List.nil_append]
      have key := ih
        (update m (.deploymentStep (m.currentStep + 1) m.deploymentSteps.length
          (m.deploymentSteps.getD m.currentStep ⟨"", ""⟩))).1
        (sp ++ (update m (.deploymentStep (m.currentStep + 1) m.deploymentSteps.length
          (m.deploymentSteps.getD m.currentStep ⟨"", ""⟩))).2.collect.2)
        hB1 hB2 (by rw [hB3]; exact hval) (by rw [hB4, hB3]; omega)
      rw [hB3, hB4] at key
      obtain ⟨k1, k2, k3, k4⟩ := key
      rw [run_add (2 * k + 4) 1, run_nilQueue 1 _ k4]
      exact ⟨k1, k2, k3, k4⟩
/-- C5 counterexample: the spec's own scenario plan
`[echo a (local), echo b (remote), echo c (local)]` of `N = 3` steps runs to
completion (both local commands spawned, `"echo b\n"` written to the remote
session), but the sequencer ends with `currentStep = 2`, not `3`:
`executeDeploymentStep` sets `currentStep := stepIndex` only for indices inside
the plan, and the final advance to index `N` takes the bounds branch without
touching the cursor. -/
theorem c5_final_index_counterexample :
    (let s := run 12 ⟨initModel
        [DeploymentStep.mk "echo a" "local", DeploymentStep.mk "echo b" "remote",
         DeploymentStep.mk "echo c" "local"] true, [triggerMsg 3], []⟩
     s.model.deploymentComplete = true ∧
     s.model.deploymentRunning = false ∧
     s.spawned = ["echo a", "echo c"] ∧
     s.model.sentToRemote = ["echo b\n"] ∧
     s.queue = [] ∧
     s.model.currentStep = 2 ∧
     ¬ s.model.currentStep = 3) := by
  decide


/-- Helper: the deployment trigger message (`StepNum` 0, empty command) with
the sequencer idle starts the plan: `StartDeploymentScript` marks it running,
sets the cursor to 0 and dispatches step 0. -/
theorem update_trigger_dispatch (m : Model) (total : Nat)
    (hrun : m.deploymentRunning = false) (hsess : m.terminalSession = true)
    (hne : 0 < m.deploymentSteps.length) :
    (update m (triggerMsg total)).1.deploymentRunning = true ∧
    (update m (triggerMsg total)).1.terminalSession = true ∧
    (update m (triggerMsg total)).1.deploymentSteps = m.deploymentSteps ∧
    (update m (triggerMsg total)).1.currentStep = 0 ∧
    (update m (triggerMsg total)).2.collect.1 = dispatchQueue m.deploymentSteps 0 := by
  have hn : ¬ (m.deploymentSteps.length ≤ 0) := by omega
  have hz : ¬ (m.deploymentSteps.length = 0) := by omega
  by_cases ht : (m.deploymentSteps.getD 0 ⟨"", ""⟩).Target = "local"
  all_goals
    simp only [List.getD_eq_getElem?_getD] at ht
    simp [update, triggerMsg, StartDeploymentScript, executeDeploymentStep, hrun, hsess,
          hn, hz, ht, Cmd.collect, dispatchQueue, tickCmd]

/-- C5 (amended): for every non-empty plan whose step targets are all "local"
or "remote", the triggered sequencer — session present, every local spawn
succeeding, no local-step failure — runs to the Complete state:
`deploymentComplete` true, `deploymentRunning` false, no pending messages, and
`currentStep = N - 1`, the index of the last step (not `N`). -/
theorem c5_deployment_run_complete (steps : List DeploymentStep)
    (hne : steps ≠ [])
    (hval : ∀ s ∈ steps, s.Target = "local" ∨ s.Target = "remote") :
    FinishedAt
      (run (2 * steps.length + 3) ⟨initModel steps true, [triggerMsg steps.length], []⟩)
      (steps.length - 1) := by
  have hlen : 1 ≤ steps.length := by
    cases steps with
    | nil => exact absurd rfl hne
    | cons a as => simp
  obtain ⟨hT1, hT2, hT3, hT4, hT5⟩ := update_trigger_dispatch (initModel steps true)
    steps.length rfl rfl (by show 0 < steps.length; omega)
  have hf : 2 * steps.length + 3 = (2 * (steps.length - 1) + 4) + 1 := by omega
  rw [hf, run_succ, stepSys_cons, hT5]
  simp only [List.nil_append]
  have key := run_tail (steps.length - 1)
    (update (initModel steps true) (triggerMsg steps.length)).1
    ((update (initModel steps true) (triggerMsg steps.length)).2.collect.2)
    hT1 hT2 (by rw [hT3]; exact hval)
    (by rw [hT4, hT3]; show 0 + (steps.length - 1 + 1) = steps.length; omega)
  rw [hT3, hT4] at key
  exact key

/-- Witness for C5 (amended) at the one-step local plan `[echo a (local)]`:
the run finishes Complete with the cursor still at index 0. -/
theorem c5_deployment_run_complete_witness :
    FinishedAt
      (run 5 ⟨initModel [DeploymentStep.mk "echo a" "local"] true, [triggerMsg 1], []⟩) 0 :=
  c5_deployment_run_complete [DeploymentStep.mk "echo a" "local"] (by decide) (by decide)

/-- Helper: `executeDeploymentStep` never moves the cursor below its current
value: the bounds branch leaves it unchanged and the dispatch branches set it
to the requested (not smaller) index. -/
theorem executeDeploymentStep_cs_mono (m : Model) (i : Nat) (h : m.currentStep ≤ i) :
    m.currentStep ≤ (executeDeploymentStep m i).1.currentStep := by
  simp only [executeDeploymentStep]
  split_ifs <;> simp_all

/-- Helper: `ContinueDeployment` never decreases the cursor. -/
theorem ContinueDeployment_cs_mono (m : Model) :
    m.currentStep ≤ (ContinueDeployment m).1.currentStep := by
  simp only [ContinueDeployment]
  split_ifs
  · exact Nat.le_refl _
  · exact executeDeploymentStep_cs_mono m (m.currentStep + 1) (by omega)

/-- C9 counterexample: run the plan `[echo a (local), echo b (local)]` to
completion — reaching a state with `currentStep = 1` and the sequencer no
longer running — then deliver one more deployment-trigger message (the shape
the `TerminalConnectedMsg` handler emits).  Because the trigger guard checks
only `!deploymentRunning`, the handler restarts the plan through
`StartDeploymentScript`, which resets `currentStep` to 0 — a decrease. -/
theorem c9_currentStep_decrease_counterexample :
    (let s := run 10 ⟨initModel [DeploymentStep.mk "echo a" "local",
        DeploymentStep.mk "echo b" "local"] true, [triggerMsg 2], []⟩
     s.model.currentStep = 1 ∧ s.model.deploymentRunning = false ∧
     (update s.model (triggerMsg 2)).1.currentStep = 0) := by
  decide

/-- C9 (amended): across every embedded message kind, an `update` transition
leaves `currentStep` unchanged or strictly larger — except for a
deployment-trigger message (`DeploymentStepMsg` with step number 0 and empty
command) received while the sequencer is not running, which restarts the plan
and resets the cursor to 0. -/
theorem c9_currentStep_monotone (m : Model) (msg : Msg)
    (h : ∀ total step, msg = .deploymentStep 0 total step → step.Command = "" →
          m.deploymentRunning = true) :
    m.currentStep ≤ (update m msg).1.currentStep := by
  cases msg with
  | tick => exact Nat.le_refl _
  | localOutput data =>
    simp only [update]
    split_ifs with hr
    · exact ContinueDeployment_cs_mono { m with localContent := m.localContent ++ [data] }
    · exact Nat.le_refl _
  | localError err =>
    simp only [update]
    split_ifs <;> exact Nat.le_refl _
  | deploymentStep stepNum total step =>
    simp only [update]
    split_ifs with htrig hrem
    · obtain ⟨h0, hcmd, hnr⟩ := htrig
      have hr := h total step (by rw [h0]) hcmd
      rw [hr] at hnr
      exact Bool.noConfusion hnr
    · exact ContinueDeployment_cs_mono { m with logContent := m.logContent
        ++ ["[STEP] [" ++ toString stepNum ++ "/" ++ toString total ++ "] Running "
            ++ "remote" ++ ": " ++ step.Command ++ "\n"] }
    · exact Nat.le_refl _
  | deploymentDone => exact Nat.le_refl _
  | terminalConnected =>
    simp only [update]
    split_ifs <;> exact Nat.le_refl _

/-- Witness for C9 (amended): a local-output message (not a trigger) never
decreases the cursor of the initial model. -/
theorem c9_currentStep_monotone_witness :
    (initModel [] true).currentStep
      ≤ (update (initModel [] true) (Msg.localOutput "hi")).1.currentStep :=
  c9_currentStep_monotone (initModel [] true) (Msg.localOutput "hi")
    (fun _ _ heq _ => nomatch heq)

end GCDeploy
